import Mathlib

/-!
Shallow embedding of the diamant CLI core: the component registry and
dependency resolver (src/utils/registry.ts), the installation-manifest
helpers (src/utils/config.ts), the content transform and classification
logic shared by the diff and update commands (src/commands/diff.ts,
src/commands/update.ts), the per-component file-copy loop of the add
command (src/commands/add.ts), and the remove command pipeline
(src/commands/remove.ts).

Filesystem reads/writes, the template store, and interactive confirmation
are external collaborators; they are passed in as explicit parameters
(existence predicates, read functions, confirmation booleans) and file
writes are recorded in the returned state.  JavaScript strings are modelled
as Lean String; toLowerCase, trim and the \s character class are modelled
over ASCII (all registry keys and file contents of interest are ASCII).
-/

namespace Diamant

/-- Model of JavaScript String.prototype.toLowerCase (ASCII range). -/
def lower (s : String) : String :=
  ⟨s.data.map Char.toLower⟩

/-- Model of JavaScript String.prototype.trim: strip leading and trailing
whitespace. -/
def jsTrim (s : String) : String :=
  ⟨((s.data.dropWhile Char.isWhitespace).reverse.dropWhile Char.isWhitespace).reverse⟩

/-- One entry of the static component registry
(interface ComponentDefinition in src/utils/registry.ts). -/
structure ComponentDefinition where
  name : String
  description : String
  dependencies : List String
  internalDependencies : List String
  files : List String
deriving DecidableEq, Repr

/-- A registry is the key-to-definition record; JavaScript objects preserve
insertion order, so it is modelled as an association list with unique keys. -/
abbrev Registry := List (String × ComponentDefinition)

/-- The static registry of src/utils/registry.ts, in source order. -/
def registry : Registry := [
  ("accordion", ⟨"Accordion", "A vertically stacked set of interactive headings that reveal content", ["lucide-react"], [], ["Accordion.tsx"]⟩),
  ("alert", ⟨"Alert", "Displays a callout for user attention", ["lucide-react"], [], ["Alert.tsx"]⟩),
  ("alertdialog", ⟨"AlertDialog", "A modal dialog that interrupts the user with important content", ["lucide-react"], ["button"], ["AlertDialog.tsx"]⟩),
  ("avatar", ⟨"Avatar", "An image element with a fallback for user profiles", [], [], ["Avatar.tsx"]⟩),
  ("badge", ⟨"Badge", "Displays a small badge or tag", [], [], ["Badge.tsx"]⟩),
  ("button", ⟨"Button", "A clickable button with multiple variants and ripple effect", [], [], ["Button.tsx"]⟩),
  ("card", ⟨"Card", "A container for content with header, body, and footer sections", [], [], ["Card.tsx"]⟩),
  ("carousel", ⟨"Carousel", "A slideshow component for cycling through elements", ["lucide-react"], ["button"], ["Carousel.tsx"]⟩),
  ("checkbox", ⟨"Checkbox", "A control that allows the user to toggle between checked and unchecked", ["lucide-react"], [], ["Checkbox.tsx"]⟩),
  ("dialog", ⟨"Dialog", "A modal dialog for displaying content", ["lucide-react"], [], ["Dialog.tsx"]⟩),
  ("dropdown", ⟨"Dropdown", "A menu that appears on click or hover", ["lucide-react"], [], ["Dropdown.tsx"]⟩),
  ("fontprovider", ⟨"FontProvider", "Provider for managing fonts across your application", [], [], ["FontProvider.tsx"]⟩),
  ("input", ⟨"Input", "A text input field with multiple variants", [], [], ["Input.tsx"]⟩),
  ("label", ⟨"Label", "A label for form elements", [], [], ["Label.tsx"]⟩),
  ("notification", ⟨"Notification", "Toast-style notifications that appear at screen corners", ["lucide-react"], [], ["Notification.tsx"]⟩),
  ("progress", ⟨"Progress", "Displays an indicator showing the completion progress of a task", [], [], ["Progress.tsx"]⟩),
  ("radio", ⟨"Radio", "A set of checkable buttons where only one can be selected at a time", [], [], ["Radio.tsx"]⟩),
  ("select", ⟨"Select", "A dropdown for selecting from a list of options", ["lucide-react"], [], ["Select.tsx"]⟩),
  ("separator", ⟨"Separator", "A visual divider between content", [], [], ["Separator.tsx"]⟩),
  ("sheet", ⟨"Sheet", "A panel that slides in from the edge of the screen", ["lucide-react"], [], ["Sheet.tsx"]⟩),
  ("skeleton", ⟨"Skeleton", "A placeholder for content that is loading", [], [], ["Skeleton.tsx"]⟩),
  ("slider", ⟨"Slider", "An input for selecting a value from a range", [], [], ["Slider.tsx"]⟩),
  ("switch", ⟨"Switch", "A toggle switch for boolean values", [], [], ["Switch.tsx"]⟩),
  ("tabs", ⟨"Tabs", "A set of layered sections of content", [], [], ["Tabs.tsx"]⟩),
  ("textarea", ⟨"Textarea", "A multi-line text input field", [], [], ["Textarea.tsx"]⟩),
  ("toggle", ⟨"Toggle", "A two-state button that can be on or off", [], [], ["Toggle.tsx"]⟩),
  ("tooltip", ⟨"Tooltip", "A popup that displays information related to an element", [], [], ["Tooltip.tsx"]⟩)]

/-- getAllComponentNames: Object.keys(registry) in insertion order. -/
def getAllComponentNames : List String :=
  registry.map Prod.fst

/-- Sum, over registry entries whose key is not yet in the visited set, of
the length of their internalDependencies list.  This is the worklist budget:
every entry can be visited at most once, and a visit pushes at most its
internalDependencies onto the worklist. -/
def totalBudget (reg : Registry) (resolved : List String) : Nat :=
  match reg with
  | [] => 0
  | (k, c) :: tl =>
    (if resolved.contains k then 0 else c.internalDependencies.length) + totalBudget tl resolved

/-- The worklist loop of resolveComponentDependencies.  The JavaScript array
toProcess is popped from its end, so it is modelled as a list whose head is
the array's last element; pushing the dependency list dep_1 .. dep_n onto the
array end corresponds to prepending its reverse.  The loop also accumulates
the console.warn diagnostics for unknown components (one per popped unknown
name, carrying the original non-normalized string).  The fuel argument makes
the while-loop structurally recursive; the termination theorem below shows
that fuel = toProcess.length + totalBudget reg resolved always suffices. -/
def resolveLoop (reg : Registry) :
    Nat → List String → List String → List String → Option (List String × List String)
  | _, resolved, warns, [] => some (resolved, warns)
  | 0, _, _, _ :: _ => none
  | fuel + 1, resolved, warns, name :: rest =>
    let normalizedName := lower name
    if resolved.contains normalizedName then
      resolveLoop reg fuel resolved warns rest
    else
      match List.lookup normalizedName reg with
      | none => resolveLoop reg fuel resolved (warns ++ [name]) rest
      | some component =>
        let resolved2 := resolved ++ [normalizedName]
        let pushes := (component.internalDependencies.filter
            (fun dep => !resolved2.contains dep)).reverse
        resolveLoop reg fuel resolved2 warns (pushes ++ rest)

/-- resolveComponentDependencies together with its emitted diagnostics:
first component is the resolved id list (Set insertion order), second the
list of "Unknown component" warnings. -/
def resolveWithWarnings (componentNames : List String) : List String × List String :=
  match resolveLoop registry (componentNames.length + totalBudget registry [])
      [] [] componentNames.reverse with
  | some r => r
  | none => ([], [])

/-- resolveComponentDependencies from src/utils/registry.ts. -/
def resolveComponentDependencies (componentNames : List String) : List String :=
  (resolveWithWarnings componentNames).1

/-- JavaScript Set.add modelled on an insertion-ordered duplicate-free list. -/
def addUnique (acc : List String) (x : String) : List String :=
  if acc.contains x then acc else acc ++ [x]

/-- getNpmDependencies from src/utils/registry.ts: union (in insertion
order, duplicates removed by the Set) of the package dependencies of every
resolved component that the registry recognizes. -/
def getNpmDependencies (componentNames : List String) : List String :=
  componentNames.foldl (fun deps name =>
    match List.lookup (lower name) registry with
    | none => deps
    | some component => component.dependencies.foldl addUnique deps) []

/-! ## Installation manifest (src/utils/config.ts) -/

/-- The tailwind block of diamant.json. -/
structure TailwindPaths where
  config : String
  css : String
deriving DecidableEq, Repr

/-- The aliases block of diamant.json. -/
structure AliasPaths where
  components : String
  utils : String
deriving DecidableEq, Repr

/-- interface DiamantConfig: the parsed diamant.json manifest (the optional
$schema field carries no behavior and is omitted). -/
structure DiamantConfig where
  typescript : Bool
  tailwind : TailwindPaths
  aliases : AliasPaths
  installedComponents : List String
deriving DecidableEq, Repr

/-- DEFAULT_CONFIG from src/utils/config.ts. -/
def defaultConfig : DiamantConfig :=
  ⟨true, ⟨"tailwind.config.js", "src/app/globals.css"⟩,
    ⟨"src/components/ui", "src/lib"⟩, []⟩

/-- JavaScript Array.prototype.sort with the default comparator on an array
of strings: sort lexicographically. -/
def jsSortStrings (l : List String) : List String :=
  l.insertionSort (· ≤ ·)

/-- The state of the diamant.json manifest file as seen through readConfig:
none when the file is missing or unparseable (readConfig returns null in
both cases), some config when it parses. -/
abbrev ManifestFile := Option DiamantConfig

/-- addInstalledComponent from src/utils/config.ts as a function of the
manifest-file state.  Returns the new file state together with a flag
recording whether writeConfig was invoked.  A null readConfig result makes
the function return silently with no write; an id already present is a
no-op; otherwise the id is pushed, the list sorted, and the whole document
written once. -/
def addInstalledComponent (componentName : String) (file : ManifestFile) :
    ManifestFile × Bool :=
  match file with
  | none => (none, false)
  | some config =>
    if config.installedComponents.contains componentName then
      (some config, false)
    else
      (some { config with
        installedComponents := jsSortStrings (config.installedComponents ++ [componentName]) },
       true)

/-- removeInstalledComponent from src/utils/config.ts: indexOf finds the
first occurrence and splice removes exactly it (List.erase), followed by one
write; absent id or null readConfig result are silent no-ops. -/
def removeInstalledComponent (componentName : String) (file : ManifestFile) :
    ManifestFile × Bool :=
  match file with
  | none => (none, false)
  | some config =>
    if config.installedComponents.contains componentName then
      (some { config with
        installedComponents := config.installedComponents.erase componentName },
       true)
    else
      (some config, false)

/-! ## Content transform

The single textual substitution applied to every copied or compared file:
content.replace(/from\s+["']\.\.\/\.\.\/lib\/utils["']/g, `from "UTILS"`).
It is modelled as a left-to-right scan over the character list replacing
every non-overlapping match of the pattern: the literal "from", one or more
whitespace characters (greedy; the following token is a quote, so greedy
matching without backtracking is exact), a single or double quote, the
literal ../../lib/utils, and a closing single or double quote. -/

/-- Match the literal character list at the front, returning the remainder. -/
def matchLit : List Char → List Char → Option (List Char)
  | [], cs => some cs
  | _ :: _, [] => none
  | l :: ls, c :: cs => if c = l then matchLit ls cs else none

/-- Match one-or-more whitespace characters (the regex \s+, ASCII range). -/
def matchWs1 : List Char → Option (List Char)
  | [] => none
  | c :: cs => if c.isWhitespace then some (cs.dropWhile Char.isWhitespace) else none

/-- Match a single character of the class ["'] . -/
def matchQuote : List Char → Option (List Char)
  | [] => none
  | c :: cs => if c = '"' ∨ c = '\'' then some cs else none

/-- Match the whole import pattern at the current position. -/
def matchImport (cs : List Char) : Option (List Char) :=
  match matchLit "from".data cs with
  | none => none
  | some r1 =>
    match matchWs1 r1 with
    | none => none
    | some r2 =>
      match matchQuote r2 with
      | none => none
      | some r3 =>
        match matchLit "../../lib/utils".data r3 with
        | none => none
        | some r4 => matchQuote r4

/-- Replace every non-overlapping match of the import pattern, scanning left
to right.  Each step consumes at least one character, so fuel equal to the
input length suffices. -/
def replaceImportGo (repl : List Char) : Nat → List Char → List Char
  | _, [] => []
  | 0, cs => cs
  | fuel + 1, c :: cs =>
    match matchImport (c :: cs) with
    | some rest => repl ++ replaceImportGo repl fuel rest
    | none => c :: replaceImportGo repl fuel cs

/-- The Content Transform: rewrite imports of ../../lib/utils to the
configured utils import path. -/
def transformContent (utilsImportPath : String) (content : String) : String :=
  ⟨replaceImportGo ("from \"" ++ utilsImportPath ++ "\"").data content.data.length content.data⟩

/-! ## The add command's per-component copy loop (src/commands/add.ts)

For every component in the final action set, and for every file in its file
list: read the template file, transform it, write it to the destination, and
mark the component installed in the manifest — all four inside one try
block whose catch prints a failure and calls process.exit(1).  Reads and
writes are external collaborators: copyOk f says whether the read+write of
file f succeeds.  The state records the files written so far in order, the
manifest-file state (threaded through addInstalledComponent, which re-reads
and re-writes the document), and whether process.exit was reached. -/

/-- State threaded through the add command's copy loop. -/
structure AddState where
  filesWritten : List String
  manifestFile : ManifestFile
  aborted : Bool
deriving DecidableEq, Repr

/-- The inner per-file loop of add for one component: on success the file is
recorded as written and addInstalledComponent runs immediately after the
write; on failure the loop stops and the command aborts (process.exit). -/
def copyFiles (copyOk : String → Bool) (name : String) :
    List String → AddState → AddState
  | [], st => st
  | f :: rest, st =>
    if copyOk f then
      copyFiles copyOk name rest
        { filesWritten := st.filesWritten ++ [f],
          manifestFile := (addInstalledComponent name st.manifestFile).1,
          aborted := st.aborted }
    else
      { st with aborted := true }

/-- The outer loop of add over componentsToAdd.  process.exit(1) ends the
whole command, so once aborted nothing further runs; a name the registry
does not know is skipped (continue). -/
def addCopyLoop (reg : Registry) (copyOk : String → Bool) :
    List String → AddState → AddState
  | [], st => st
  | name :: restNames, st =>
    if st.aborted then st
    else
      match List.lookup name reg with
      | none => addCopyLoop reg copyOk restNames st
      | some component =>
        addCopyLoop reg copyOk restNames (copyFiles copyOk name component.files st)

/-! ## The remove command (src/commands/remove.ts)

The pipeline after configExists/readConfig succeeded: validate the requested
names against the registry (invalid ones are collected and printed),
restrict the valid ones to those whose first file exists on disk, compute
the dependents warning, optionally confirm, then delete every file of every
component in the removal set and remove each id from the manifest.

fe is the fileExists collaborator applied to a component file name (the
componentsDir prefix of the joined path is constant and dropped).  yes is
options.yes; confirmAnswer is the interactive confirmation's reply, read
only when yes is false.  The result records every list the command surfaces
to the user, the deletions performed, and the final manifest-file state. -/

/-- Everything the remove command reports and does. -/
structure RemoveResult where
  /-- the "Unknown components" warning list (original input strings) -/
  invalidComponents : List String
  /-- "No valid components to remove." was printed and the command returned -/
  noValidMsg : Bool
  /-- the removal set: valid ids whose first file exists on disk -/
  installedComponents : List String
  /-- "None of the specified components are installed." was printed -/
  noneInstalledMsg : Bool
  /-- the dependents warning list ("components depend on components being removed") -/
  dependentComponents : List String
  /-- the confirmation was declined and the command returned -/
  cancelled : Bool
  /-- files passed to deleteFile, in order -/
  deletedFiles : List String
  /-- manifest-file state after the command -/
  finalManifest : ManifestFile
  /-- the deletion loop ran to completion -/
  performed : Bool
deriving DecidableEq, Repr

/-- The validComponents list of remove: requested names, normalized, that the
registry recognizes (in request order). -/
def removeValid (reg : Registry) (components : List String) : List String :=
  components.filterMap (fun name =>
    if (List.lookup (lower name) reg).isSome then some (lower name) else none)

/-- The invalidComponents list of remove: requested names (original strings)
the registry does not recognize. -/
def removeInvalid (reg : Registry) (components : List String) : List String :=
  components.filter (fun name => (List.lookup (lower name) reg).isNone)

/-- remove's installedComponents: the valid ids whose first file exists on
disk — the removal set. -/
def removeOnDisk (reg : Registry) (fe : String → Bool) (valid : List String) :
    List String :=
  valid.filter (fun n =>
    match List.lookup n reg with
    | none => false
    | some c => fe (c.files.headD ""))

/-- remove's dependents warning: for each id being removed, every registry
entry whose internalDependencies include it, which the manifest lists as
installed, and which is not itself being removed. -/
def removeDependents (reg : Registry) (cfg : DiamantConfig)
    (installed : List String) : List String :=
  installed.foldl (fun acc name =>
    acc ++ (reg.filter (fun p =>
      p.2.internalDependencies.contains name &&
      cfg.installedComponents.contains p.1 &&
      !installed.contains p.1)).map Prod.fst) []

/-- remove's deletion loop: for each id in the removal set, delete every
file of its file list, then remove the id from the manifest.  Returns the
deleted files in order and the final manifest-file state. -/
def removeExec (reg : Registry) (installed : List String)
    (start : List String × ManifestFile) : List String × ManifestFile :=
  installed.foldl (fun acc name =>
    match List.lookup name reg with
    | none => acc
    | some c => (acc.1 ++ c.files, (removeInstalledComponent name acc.2).1)) start

/-- The remove command given the parsed config cfg. -/
def removeCmd (reg : Registry) (components : List String) (fe : String → Bool)
    (cfg : DiamantConfig) (yes confirmAnswer : Bool) : RemoveResult :=
  let valid := removeValid reg components
  let invalid := removeInvalid reg components
  if valid.isEmpty then
    ⟨invalid, true, [], false, [], false, [], some cfg, false⟩
  else
    let installed := removeOnDisk reg fe valid
    if installed.isEmpty then
      ⟨invalid, false, [], true, [], false, [], some cfg, false⟩
    else
      let deps := removeDependents reg cfg installed
      if !yes && !confirmAnswer then
        ⟨invalid, false, installed, false, deps, true, [], some cfg, false⟩
      else
        let final := removeExec reg installed ([], some cfg)
        ⟨invalid, false, installed, false, deps, false, final.1, final.2, true⟩

/-! ## Classification in update (src/commands/update.ts) and diff
(src/commands/diff.ts)

Both commands compare the local file content with the transform-adjusted
template content after trimming.  readL / readS are the filesystem and
template-store read collaborators (none models a read that throws, caught
by the surrounding try); u is the computed utils import path. -/

/-- How the update command's scan loop treats one requested name. -/
inductive UpdateClass where
  /-- registry[name.toLowerCase()] is undefined: continue, no record -/
  | unknownComp : UpdateClass
  /-- first file absent on disk: continue, no record -/
  | missingOnDisk : UpdateClass
  /-- a read threw: caught, no record -/
  | readError : UpdateClass
  /-- recorded with hasChanges = false -/
  | upToDate : UpdateClass
  /-- recorded with hasChanges = true: the only per-component surfaced case -/
  | hasChanges : UpdateClass
deriving DecidableEq, Repr

/-- One iteration of update's check loop for a requested name. -/
def updateCheck (reg : Registry) (fe : String → Bool)
    (readL readS : String → Option String) (u : String) (name : String) : UpdateClass :=
  match List.lookup (lower name) reg with
  | none => .unknownComp
  | some c =>
    let f0 := c.files.headD ""
    if !fe f0 then .missingOnDisk
    else
      match readL f0, readS f0 with
      | some localContent, some sourceContent =>
        if jsTrim localContent == jsTrim (transformContent u sourceContent) then
          .upToDate
        else
          .hasChanges
      | _, _ => .readError

/-- componentsToUpdate as built by update's scan: one (normalized name,
hasChanges) record per requested component that is known, on disk and
readable; every other case falls through with no record. -/
def updateScan (reg : Registry) (fe : String → Bool)
    (readL readS : String → Option String) (u : String)
    (components : List String) : List (String × Bool) :=
  components.filterMap (fun name =>
    match updateCheck reg fe readL readS u name with
    | .upToDate => some (lower name, false)
    | .hasChanges => some (lower name, true)
    | _ => none)

/-- How the diff command's no-argument summary pass reports one
manifest-installed name. -/
inductive DiffClass where
  /-- registry[name] is undefined: continue, nothing printed -/
  | unknownSkipped : DiffClass
  /-- printed as "(missing)" -/
  | missing : DiffClass
  /-- printed as "(error reading)" -/
  | readError : DiffClass
  /-- printed as "(up to date)" -/
  | upToDate : DiffClass
  /-- printed as modified with block counts -/
  | modified : DiffClass
deriving DecidableEq, Repr

/-- One iteration of diff's summary loop over config.installedComponents
(names are taken from the manifest verbatim, no normalization). -/
def diffCheck (reg : Registry) (fe : String → Bool)
    (readL readS : String → Option String) (u : String) (name : String) : DiffClass :=
  match List.lookup name reg with
  | none => .unknownSkipped
  | some c =>
    let f0 := c.files.headD ""
    if !fe f0 then .missing
    else
      match readL f0, readS f0 with
      | some localContent, some sourceContent =>
        if jsTrim localContent == jsTrim (transformContent u sourceContent) then
          .upToDate
        else
          .modified
      | _, _ => .readError

/-! ## Concrete instances used by witnesses and counterexamples -/

/-- A registry whose internalDependencies graph is a two-cycle, exercising
the resolver's termination independently of the no-cycle invariant. -/
def cycReg : Registry := [
  ("alpha", ⟨"Alpha", "cyclic test component", [], ["beta"], ["Alpha.tsx"]⟩),
  ("beta", ⟨"Beta", "cyclic test component", [], ["alpha"], ["Beta.tsx"]⟩)]

/-- A hypothetical component with two files; the registry of this repository
only has single-file components, but the data model and the add copy loop
support arbitrary file lists. -/
def widgetDef : ComponentDefinition :=
  ⟨"Widget", "a two-file component", [], [], ["w1", "w2"]⟩

/-- The carousel registry entry. -/
def carouselDef : ComponentDefinition :=
  ⟨"Carousel", "A slideshow component for cycling through elements",
    ["lucide-react"], ["button"], ["Carousel.tsx"]⟩

/-- The button registry entry. -/
def buttonDef : ComponentDefinition :=
  ⟨"Button", "A clickable button with multiple variants and ripple effect",
    [], [], ["Button.tsx"]⟩

/-- The card registry entry. -/
def cardDef : ComponentDefinition :=
  ⟨"Card", "A container for content with header, body, and footer sections",
    [], [], ["Card.tsx"]⟩

/-- A manifest with button and carousel installed. -/
def cfgBC : DiamantConfig :=
  { defaultConfig with installedComponents := ["button", "carousel"] }

/-- A manifest with only button installed. -/
def cfgB : DiamantConfig :=
  { defaultConfig with installedComponents := ["button"] }

/-- A template file whose import line the Content Transform rewrites. -/
def sampleSource : String :=
  "import { cn } from \"../../lib/utils\";\nexport const x = cn;\n"

/-! ## Helper lemmas -/

theorem contains_iff {l : List String} {a : String} : l.contains a = true ↔ a ∈ l := by
  simp [List.contains, List.elem_iff]

theorem contains_false_iff {l : List String} {a : String} :
    l.contains a = false ↔ a ∉ l := by
  rw [← Bool.not_eq_true, not_iff_not]; exact contains_iff

theorem lookup_mem {β : Type} {l : List (String × β)} {a : String} {c : β}
    (h : List.lookup a l = some c) : (a, c) ∈ l := by
  induction l with
  | nil => simp [List.lookup] at h
  | cons hd tl ih =>
    obtain ⟨k, v⟩ := hd
    rw [List.lookup] at h
    split at h
    · next heq =>
      cases h
      have h2 : a = k := beq_iff_eq.mp heq
      subst h2
      exact List.mem_cons_self _ _
    · exact List.mem_cons_of_mem _ (ih h)

/-- Adding an element to the visited set can only shrink an entry's budget
contribution. -/
theorem ite_budget_le (resolved : List String) (k k' : String) (d : Nat) :
    (if (resolved ++ [k]).contains k' then 0 else d) ≤
      (if resolved.contains k' then 0 else d) := by
  by_cases h : resolved.contains k' = true
  · have h2 : (resolved ++ [k]).contains k' = true :=
      contains_iff.mpr (List.mem_append_left _ (contains_iff.mp h))
    rw [h, h2]
  · rw [Bool.not_eq_true] at h
    rw [h]
    simp only [Bool.false_eq_true, if_false]
    split <;> omega

/-- Monotonicity of the worklist budget in the visited set. -/
theorem totalBudget_append_le (reg : Registry) (resolved : List String) (k : String) :
    totalBudget reg (resolved ++ [k]) ≤ totalBudget reg resolved := by
  induction reg with
  | nil => simp [totalBudget]
  | cons hd tl ih =>
    obtain ⟨k', c'⟩ := hd
    simp only [totalBudget]
    have := ite_budget_le resolved k k' c'.internalDependencies.length
    omega

/-- Visiting a registry entry pays for the dependencies it pushes: the
budget decreases by at least the entry's internalDependencies length. -/
theorem totalBudget_visit {reg : Registry} {resolved : List String} {k : String}
    {c : ComponentDefinition} (hl : List.lookup k reg = some c)
    (hk : resolved.contains k = false) :
    totalBudget reg (resolved ++ [k]) + c.internalDependencies.length ≤
      totalBudget reg resolved := by
  induction reg with
  | nil => simp [List.lookup] at hl
  | cons hd tl ih =>
    obtain ⟨k', c'⟩ := hd
    rw [List.lookup] at hl
    simp only [totalBudget]
    split at hl
    · next heq =>
      cases hl
      have h2 : k = k' := beq_iff_eq.mp heq
      subst h2
      have h3 : (resolved ++ [k]).contains k = true :=
        contains_iff.mpr (List.mem_append_right _ (List.mem_singleton_self k))
      rw [hk, h3]
      have := totalBudget_append_le tl resolved k
      simp only [if_true, Bool.false_eq_true, if_false]
      omega
    · have h4 := ih hl
      have := ite_budget_le resolved k k' c'.internalDependencies.length
      omega

/-- The worklist loop returns as soon as the worklist is empty, whatever
fuel remains. -/
theorem resolveLoop_nil (reg : Registry) (fuel : Nat) (resolved warns : List String) :
    resolveLoop reg fuel resolved warns [] = some (resolved, warns) := by
  cases fuel <;> rfl

/-- The worklist loop completes within toProcess.length + totalBudget
steps, for every registry and every state. -/
theorem resolveLoop_total (reg : Registry) (fuel : Nat)
    (resolved warns toProcess : List String)
    (h : toProcess.length + totalBudget reg resolved ≤ fuel) :
    (resolveLoop reg fuel resolved warns toProcess).isSome = true := by
  induction fuel generalizing resolved warns toProcess with
  | zero =>
    cases toProcess with
    | nil => rw [resolveLoop_nil]; rfl
    | cons a l => simp at h
  | succ f ih =>
    cases toProcess with
    | nil => rw [resolveLoop_nil]; rfl
    | cons name rest =>
      simp only [resolveLoop]
      split
      · exact ih resolved warns rest (by simp only [List.length_cons] at h; omega)
      · next hcon =>
        rw [Bool.not_eq_true] at hcon
        split
        · exact ih resolved (warns ++ [name]) rest
            (by simp only [List.length_cons] at h; omega)
        · next component heq =>
          have key := totalBudget_visit heq hcon
          apply ih
          have hp : ((component.internalDependencies.filter
              (fun dep => !(resolved ++ [lower name]).contains dep)).reverse).length ≤
                component.internalDependencies.length := by
            rw [List.length_reverse]
            exact List.length_filter_le _ _
          simp only [List.length_cons, List.length_append] at h ⊢
          omega

/-- Claim C5.  The resolver's worklist loop completes within
toProcess.length + totalBudget reg resolved steps for EVERY registry —
including registries whose internalDependencies graph contains a cycle —
and every worklist: the visited-set check alone bounds the work, because an
entry not yet visited can be visited at most once and only a first visit
pushes new work.  resolveComponentDependencies runs this loop with exactly
fuel = componentNames.length + totalBudget registry [], so it terminates on
every input list. -/
theorem c5_resolver_terminates (reg : Registry) (fuel : Nat)
    (resolved warns toProcess : List String)
    (h : toProcess.length + totalBudget reg resolved ≤ fuel) :
    (resolveLoop reg fuel resolved warns toProcess).isSome = true :=
  resolveLoop_total reg fuel resolved warns toProcess h

/-- A cyclic two-component registry does not defeat the resolver: the
budgeted fuel suffices and the loop returns. -/
theorem c5_witness :
    ((["alpha"] : List String).length + totalBudget cycReg [] ≤ 3) ∧
    (resolveLoop cycReg 3 [] [] ["alpha"]).isSome = true :=
  ⟨by decide, c5_resolver_terminates cycReg 3 [] [] ["alpha"] (by decide)⟩

/-- Every key of the static registry is lowercase-fixed. -/
theorem registry_keys_lower : ∀ p ∈ registry, lower p.1 = p.1 := by decide

/-- A successful registry lookup implies the looked-up string is a lowercase
key. -/
theorem lower_of_registry_lookup {a : String} {c : ComponentDefinition}
    (h : List.lookup a registry = some c) : lower a = a :=
  registry_keys_lower (a, c) (lookup_mem h)

/-- Membership in a JavaScript-Set-style insert. -/
theorem mem_addUnique {acc : List String} {x y : String} :
    x ∈ addUnique acc y ↔ x ∈ acc ∨ x = y := by
  unfold addUnique
  split
  · next h =>
    constructor
    · exact Or.inl
    · rintro (h2 | rfl)
      · exact h2
      · exact contains_iff.mp h
  · simp

/-- Membership after folding Set.add over a list. -/
theorem mem_foldl_addUnique (l : List String) :
    ∀ (acc : List String) (x : String),
      x ∈ l.foldl addUnique acc ↔ x ∈ acc ∨ x ∈ l := by
  induction l with
  | nil => simp
  | cons y l ih =>
    intro acc x
    rw [List.foldl_cons, ih, mem_addUnique, List.mem_cons]
    tauto

/-- Folding Set.add preserves freedom from duplicates. -/
theorem nodup_addUnique {acc : List String} {y : String} (h : acc.Nodup) :
    (addUnique acc y).Nodup := by
  unfold addUnique
  split
  · exact h
  · next hc =>
    rw [Bool.not_eq_true] at hc
    rw [List.nodup_append]
    refine ⟨h, List.nodup_singleton y, ?_⟩
    intro a ha ha2
    rw [List.mem_singleton] at ha2
    subst ha2
    exact absurd ha (contains_false_iff.mp hc)

theorem nodup_foldl_addUnique (l : List String) :
    ∀ acc : List String, acc.Nodup → (l.foldl addUnique acc).Nodup := by
  induction l with
  | nil => intro acc h; exact h
  | cons y l ih =>
    intro acc h
    rw [List.foldl_cons]
    exact ih _ (nodup_addUnique h)

/-- Claim C1.  For every pair of registry components A (with
internalDependencies exactly [B]) and B (with no internalDependencies),
resolving [A] yields exactly the set containing A and B (in first-visit
order), and getNpmDependencies on that set is the duplicate-free union of the
two components' package dependencies. -/
theorem c1_dependency_closure (a b : String) (compA compB : ComponentDefinition)
    (hA : List.lookup a registry = some compA)
    (hDA : compA.internalDependencies = [b])
    (hB : List.lookup b registry = some compB)
    (hDB : compB.internalDependencies = []) :
    resolveComponentDependencies [a] = [a, b] ∧
    (∀ x, x ∈ getNpmDependencies (resolveComponentDependencies [a]) ↔
      x ∈ compA.dependencies ∨ x ∈ compB.dependencies) ∧
    (getNpmDependencies (resolveComponentDependencies [a])).Nodup := by
  have hla : lower a = a := lower_of_registry_lookup hA
  have hlb : lower b = b := lower_of_registry_lookup hB
  have hab : a ≠ b := by
    intro heq
    subst heq
    rw [hA] at hB
    cases hB
    rw [hDA] at hDB
    cases hDB
  have hba : (b == a) = false := beq_eq_false_iff_ne.mpr (Ne.symm hab)
  have hloop : resolveLoop registry (2 + 1) [] [] [a] = some ([a, b], []) := by
    simp only [resolveLoop, hla, hA, hDA]
    simp [List.contains, List.elem, hba]
    show resolveLoop registry (1 + 1) [a] [] [b] = some ([a, b], [])
    simp only [resolveLoop, hlb, hB, hDB]
    simp [List.contains, List.elem, hba]
  have hres : resolveComponentDependencies [a] = [a, b] := by
    unfold resolveComponentDependencies resolveWithWarnings
    have hfuel : ([a] : List String).length + totalBudget registry [] = 2 + 1 := rfl
    rw [hfuel]
    have hrev : ([a] : List String).reverse = [a] := rfl
    rw [hrev, hloop]
  refine ⟨hres, ?_, ?_⟩
  · intro x
    rw [hres]
    have hnpm : getNpmDependencies [a, b] =
        compB.dependencies.foldl addUnique (compA.dependencies.foldl addUnique []) := by
      simp only [getNpmDependencies, List.foldl_cons, List.foldl_nil, hla, hlb, hA, hB]
    rw [hnpm, mem_foldl_addUnique, mem_foldl_addUnique]
    simp only [List.not_mem_nil, false_or]
  · rw [hres]
    have hnpm : getNpmDependencies [a, b] =
        compB.dependencies.foldl addUnique (compA.dependencies.foldl addUnique []) := by
      simp only [getNpmDependencies, List.foldl_cons, List.foldl_nil, hla, hlb, hA, hB]
    rw [hnpm]
    exact nodup_foldl_addUnique _ _ (nodup_foldl_addUnique _ _ List.nodup_nil)

/-- Resolving ["carousel"] concretely yields exactly carousel and button,
and the npm dependency set is the duplicate-free union of their package
dependencies. -/
theorem c1_witness :
    resolveComponentDependencies ["carousel"] = ["carousel", "button"] ∧
    (∀ x, x ∈ getNpmDependencies (resolveComponentDependencies ["carousel"]) ↔
      x ∈ carouselDef.dependencies ∨ x ∈ buttonDef.dependencies) ∧
    (getNpmDependencies (resolveComponentDependencies ["carousel"])).Nodup :=
  c1_dependency_closure "carousel" "button" carouselDef buttonDef
    (by decide) rfl (by decide) rfl

/-- Ids already in the visited set are in the loop's final resolved list. -/
theorem resolveLoop_mono (reg : Registry) :
    ∀ (fuel : Nat) (resolved warns toProcess r w : List String),
      resolveLoop reg fuel resolved warns toProcess = some (r, w) →
      ∀ x ∈ resolved, x ∈ r := by
  intro fuel
  induction fuel with
  | zero =>
    intro resolved warns toProcess r w h x hx
    cases toProcess with
    | nil =>
      rw [resolveLoop_nil] at h
      simp only [Option.some.injEq, Prod.mk.injEq] at h
      exact h.1 ▸ hx
    | cons a l =>
      rw [show resolveLoop reg 0 resolved warns (a :: l) = none from rfl] at h
      cases h
  | succ f ih =>
    intro resolved warns toProcess r w h x hx
    cases toProcess with
    | nil =>
      rw [resolveLoop_nil] at h
      simp only [Option.some.injEq, Prod.mk.injEq] at h
      exact h.1 ▸ hx
    | cons name rest =>
      simp only [resolveLoop] at h
      split at h
      · exact ih resolved warns rest r w h x hx
      · split at h
        · exact ih resolved (warns ++ [name]) rest r w h x hx
        · exact ih _ warns _ r w h x (List.mem_append_left _ hx)

/-- Every worklist entry the registry recognizes ends up in the loop's final
resolved list: an unknown entry ahead of it (or anywhere) cannot abort its
processing, because the unknown branch merely records a diagnostic and
continues. -/
theorem resolveLoop_valid (reg : Registry) :
    ∀ (fuel : Nat) (resolved warns toProcess r w : List String),
      resolveLoop reg fuel resolved warns toProcess = some (r, w) →
      ∀ n ∈ toProcess, (List.lookup (lower n) reg).isSome = true →
        lower n ∈ r := by
  intro fuel
  induction fuel with
  | zero =>
    intro resolved warns toProcess r w h n hn hs
    cases toProcess with
    | nil => cases hn
    | cons a l =>
      rw [show resolveLoop reg 0 resolved warns (a :: l) = none from rfl] at h
      cases h
  | succ f ih =>
    intro resolved warns toProcess r w h n hn hs
    cases toProcess with
    | nil => cases hn
    | cons name rest =>
      simp only [resolveLoop] at h
      rcases List.mem_cons.mp hn with rfl | hn2
      · split at h
        · next hcon =>
          exact resolveLoop_mono reg f resolved warns rest r w h (lower n)
            (contains_iff.mp hcon)
        · split at h
          · next hnone => rw [hnone] at hs; cases hs
          · exact resolveLoop_mono reg f _ warns _ r w h (lower n)
              (List.mem_append_right _ (List.mem_singleton_self _))
      · split at h
        · exact ih resolved warns rest r w h n hn2 hs
        · split at h
          · exact ih resolved (warns ++ [name]) rest r w h n hn2 hs
          · exact ih _ warns _ r w h n (List.mem_append_right _ hn2) hs

/-- Claim C4.  For every requested list and every valid id n in it, the
resolver returns normally (its worklist loop yields a value with the fuel
resolveWithWarnings supplies) and n's processing is not aborted: its
normalized id is in the resolved result — unknown ids in the same list only
add diagnostics.  Concretely, resolving ["button", "not-a-real-component"]
yields exactly the set containing button plus exactly one diagnostic
carrying the unknown id's original string. -/
theorem c4_unknown_id_isolation (names : List String) (n : String)
    (c : ComponentDefinition) (hn : n ∈ names)
    (hc : List.lookup (lower n) registry = some c) :
    (resolveLoop registry (names.length + totalBudget registry []) [] []
      names.reverse).isSome = true ∧
    lower n ∈ resolveComponentDependencies names ∧
    resolveWithWarnings ["button", "not-a-real-component"] =
      (["button"], ["not-a-real-component"]) := by
  have htot := resolveLoop_total registry
    (names.length + totalBudget registry []) [] [] names.reverse
    (le_of_eq (by rw [List.length_reverse]))
  refine ⟨htot, ?_, by decide⟩
  obtain ⟨⟨r, w⟩, hr⟩ := Option.isSome_iff_exists.mp htot
  have hmem := resolveLoop_valid registry _ [] [] names.reverse r w hr n
    (List.mem_reverse.mpr hn) (by rw [hc]; rfl)
  unfold resolveComponentDependencies resolveWithWarnings
  rw [hr]
  exact hmem

/-- The claim's concrete instance: button is valid in the mixed list, the
loop returns, button is resolved, and the unknown id yields exactly one
diagnostic. -/
theorem c4_witness :
    ("button" : String) ∈ (["button", "not-a-real-component"] : List String) ∧
    ((resolveLoop registry ((["button", "not-a-real-component"] : List String).length +
        totalBudget registry []) [] []
        (["button", "not-a-real-component"] : List String).reverse).isSome = true ∧
     lower "button" ∈ resolveComponentDependencies ["button", "not-a-real-component"] ∧
     resolveWithWarnings ["button", "not-a-real-component"] =
       (["button"], ["not-a-real-component"])) :=
  ⟨by decide,
   c4_unknown_id_isolation ["button", "not-a-real-component"] "button" buttonDef
     (by decide) (by decide)⟩

/-- Sorting does not change membership. -/
theorem mem_jsSortStrings {l : List String} {x : String} :
    x ∈ jsSortStrings l ↔ x ∈ l :=
  List.mem_insertionSort _

/-- After a successful addInstalledComponent on a parsed manifest, the
resulting document lists the id. -/
theorem addInstalled_mem (id : String) (cfg : DiamantConfig) :
    ∃ cfg1, (addInstalledComponent id (some cfg)).1 = some cfg1 ∧
      id ∈ cfg1.installedComponents := by
  simp only [addInstalledComponent]
  split
  · next h => exact ⟨cfg, rfl, contains_iff.mp h⟩
  · refine ⟨_, rfl, ?_⟩
    exact mem_jsSortStrings.mpr (List.mem_append_right _ (List.mem_singleton_self id))

/-- A second addInstalledComponent with the same id is the identity on the
manifest-file state and performs no write. -/
theorem addInstalled_twice (id : String) (m : ManifestFile) :
    addInstalledComponent id (addInstalledComponent id m).1 =
      ((addInstalledComponent id m).1, false) := by
  cases m with
  | none => rfl
  | some cfg =>
    obtain ⟨cfg1, h1, h2⟩ := addInstalled_mem id cfg
    rw [h1]
    simp only [addInstalledComponent]
    simp [h2]

/-- Claim C3.  addInstalledComponent is idempotent on every duplicate-free
manifest: the second call is a no-op performing no write, the id ends up
appearing exactly once, an already-present id causes no write at all, and an
absent id is inserted and the whole list re-sorted before the single
full-document write. -/
theorem c3_addInstalled_idempotent (id : String) (cfg : DiamantConfig)
    (hnd : cfg.installedComponents.Nodup) :
    addInstalledComponent id (addInstalledComponent id (some cfg)).1 =
      ((addInstalledComponent id (some cfg)).1, false) ∧
    (∃ cfg1, (addInstalledComponent id (some cfg)).1 = some cfg1 ∧
      cfg1.installedComponents.count id = 1) ∧
    (id ∈ cfg.installedComponents →
      addInstalledComponent id (some cfg) = (some cfg, false)) ∧
    (id ∉ cfg.installedComponents → ∃ cfg1,
      addInstalledComponent id (some cfg) = (some cfg1, true) ∧
      List.Sorted (· ≤ ·) cfg1.installedComponents ∧
      cfg1.installedComponents.Perm (cfg.installedComponents ++ [id])) := by
  refine ⟨addInstalled_twice id (some cfg), ?_, ?_, ?_⟩
  · by_cases h : id ∈ cfg.installedComponents
    · refine ⟨cfg, ?_, List.count_eq_one_of_mem hnd h⟩
      simp only [addInstalledComponent]
      simp [h]
    · refine ⟨{ cfg with
          installedComponents := jsSortStrings (cfg.installedComponents ++ [id]) }, ?_, ?_⟩
      · simp only [addInstalledComponent]
        simp [h]
      · show (jsSortStrings (cfg.installedComponents ++ [id])).count id = 1
        unfold jsSortStrings
        rw [(List.perm_insertionSort _ _).count_eq, List.count_append]
        rw [List.count_eq_zero.mpr h]
        simp
  · intro h
    simp only [addInstalledComponent]
    simp [h]
  · intro h
    refine ⟨{ cfg with
        installedComponents := jsSortStrings (cfg.installedComponents ++ [id]) }, ?_, ?_, ?_⟩
    · simp only [addInstalledComponent]
      simp [h]
    · exact List.sorted_insertionSort _ _
    · exact List.perm_insertionSort _ _

/-- Instantiating idempotent insertion at id button on the default (empty,
duplicate-free) manifest. -/
theorem c3_witness :
    defaultConfig.installedComponents.Nodup ∧
    (addInstalledComponent "button" (addInstalledComponent "button" (some defaultConfig)).1 =
      ((addInstalledComponent "button" (some defaultConfig)).1, false) ∧
    (∃ cfg1, (addInstalledComponent "button" (some defaultConfig)).1 = some cfg1 ∧
      cfg1.installedComponents.count "button" = 1) ∧
    ("button" ∈ defaultConfig.installedComponents →
      addInstalledComponent "button" (some defaultConfig) = (some defaultConfig, false)) ∧
    ("button" ∉ defaultConfig.installedComponents → ∃ cfg1,
      addInstalledComponent "button" (some defaultConfig) = (some cfg1, true) ∧
      List.Sorted (· ≤ ·) cfg1.installedComponents ∧
      cfg1.installedComponents.Perm (defaultConfig.installedComponents ++ ["button"]))) :=
  ⟨by decide, c3_addInstalled_idempotent "button" defaultConfig (by decide)⟩

/-- Claim C10.  When readConfig yields null (missing or unparseable
manifest), addInstalledComponent and removeInstalledComponent return
silently for every id: no write happens and no error is raised. -/
theorem c10_null_manifest_noop (id : String) :
    addInstalledComponent id none = (none, false) ∧
    removeInstalledComponent id none = (none, false) :=
  ⟨rfl, rfl⟩

/-- Closed form of the add copy loop for one component when some file of
its file list fails to copy: exactly the leading run of successful files is
written, the loop aborts, and the manifest has been updated once for the
component unless the very first file already failed. -/
theorem copyFiles_fail (copyOk : String → Bool) (name : String) :
    ∀ (files : List String) (st : AddState), files.all copyOk = false →
      copyFiles copyOk name files st =
        ⟨st.filesWritten ++ files.takeWhile copyOk,
         (if files.takeWhile copyOk = [] then st.manifestFile
          else (addInstalledComponent name st.manifestFile).1),
         true⟩ := by
  intro files
  induction files with
  | nil => intro st h; simp at h
  | cons f rest ih =>
    intro st h
    rw [List.all_cons, Bool.and_eq_false_iff] at h
    by_cases hf : copyOk f = true
    · have hrest : rest.all copyOk = false := by
        rcases h with h | h
        · rw [hf] at h; cases h
        · exact h
      simp only [copyFiles, hf, if_true]
      rw [ih _ hrest]
      have htake : (f :: rest).takeWhile copyOk = f :: rest.takeWhile copyOk := by
        rw [List.takeWhile_cons, if_pos hf]
      rw [htake]
      simp only [AddState.mk.injEq]
      have hm : (addInstalledComponent name (addInstalledComponent name st.manifestFile).1).1
          = (addInstalledComponent name st.manifestFile).1 := by
        rw [addInstalled_twice]
      refine ⟨by simp, ?_, trivial⟩
      by_cases hr : rest.takeWhile copyOk = []
      · simp [hr]
      · simp [hr, hm]
    · rw [Bool.not_eq_true] at hf
      simp only [copyFiles, hf, Bool.false_eq_true, if_false]
      have htake : (f :: rest).takeWhile copyOk = [] := by
        rw [List.takeWhile_cons, if_neg (by rw [hf]; exact Bool.false_ne_true)]
      rw [htake]
      simp

/-- Once the add command has aborted (process.exit), no later component is
processed. -/
theorem addCopyLoop_aborted (reg : Registry) (copyOk : String → Bool) :
    ∀ (names : List String) (st : AddState), st.aborted = true →
      addCopyLoop reg copyOk names st = st := by
  intro names st h
  cases names with
  | nil => rfl
  | cons n rest => simp [addCopyLoop, h]

/-- Claim C2 as stated is false on the code: when copying file 2 of a
two-file component fails, file 1 has been written, the copy loop aborts —
but the manifest ALREADY marks the component installed, because
addInstalledComponent runs inside the per-file loop right after each
successful write, not once after the whole component. -/
theorem c2_counterexample :
    copyFiles (fun f => f == "w1") "widget" widgetDef.files
        ⟨[], some defaultConfig, false⟩ =
      ⟨["w1"],
       some { defaultConfig with installedComponents := ["widget"] },
       true⟩ ∧
    some { defaultConfig with installedComponents := ["widget"] } ≠
      some defaultConfig := by decide

/-- Claim C2, amended.  When copying file N of a multi-file component fails:
files 1..N-1 (the leading run of successful copies) have already been
written, the remaining files of the component are not attempted, the overall
command aborts (no later component is processed) — and the manifest update
marking the component installed has ALREADY occurred whenever at least one
file of the component was copied (N ≥ 2); the manifest is unchanged only
when the first file fails (N = 1). -/
theorem c2_partial_failure (copyOk : String → Bool) (name : String)
    (files : List String) (m : ManifestFile)
    (h : files.all copyOk = false) :
    copyFiles copyOk name files ⟨[], m, false⟩ =
      ⟨files.takeWhile copyOk,
       (if files.takeWhile copyOk = [] then m
        else (addInstalledComponent name m).1),
       true⟩ ∧
    (∀ (reg : Registry) (restNames : List String),
      addCopyLoop reg copyOk restNames (copyFiles copyOk name files ⟨[], m, false⟩) =
        copyFiles copyOk name files ⟨[], m, false⟩) := by
  have hc := copyFiles_fail copyOk name files ⟨[], m, false⟩ h
  constructor
  · rw [hc]
    simp
  · intro reg restNames
    apply addCopyLoop_aborted
    rw [hc]

/-- The amended C2 at the concrete two-file component: file w2 fails, w1 is
written, the loop aborts, and the manifest already lists widget. -/
theorem c2_witness :
    (widgetDef.files.all (fun f => f == "w1") = false) ∧
    (copyFiles (fun f => f == "w1") "widget" widgetDef.files
        ⟨[], some defaultConfig, false⟩ =
      ⟨widgetDef.files.takeWhile (fun f => f == "w1"),
       (if widgetDef.files.takeWhile (fun f => f == "w1") = [] then some defaultConfig
        else (addInstalledComponent "widget" (some defaultConfig)).1),
       true⟩ ∧
    (∀ (reg : Registry) (restNames : List String),
      addCopyLoop reg (fun f => f == "w1") restNames
          (copyFiles (fun f => f == "w1") "widget" widgetDef.files
            ⟨[], some defaultConfig, false⟩) =
        copyFiles (fun f => f == "w1") "widget" widgetDef.files
          ⟨[], some defaultConfig, false⟩)) :=
  ⟨by decide,
   c2_partial_failure (fun f => f == "w1") "widget" widgetDef.files
     (some defaultConfig) (by decide)⟩

/-- Membership in a fold that appends a generated list per element. -/
theorem mem_foldl_append {α β : Type} (g : α → List β) (l : List α) :
    ∀ (acc : List β) (x : β),
      x ∈ l.foldl (fun acc y => acc ++ g y) acc ↔ x ∈ acc ∨ ∃ y ∈ l, x ∈ g y := by
  induction l with
  | nil => simp
  | cons y l ih =>
    intro acc x
    rw [List.foldl_cons, ih, List.mem_append]
    constructor
    · rintro ((h | h) | ⟨z, hz, hx⟩)
      · exact Or.inl h
      · exact Or.inr ⟨y, List.mem_cons_self _ _, h⟩
      · exact Or.inr ⟨z, List.mem_cons_of_mem _ hz, hx⟩
    · rintro (h | ⟨z, hz, hx⟩)
      · exact Or.inl (Or.inl h)
      · rcases List.mem_cons.mp hz with rfl | hz2
        · exact Or.inl (Or.inr hx)
        · exact Or.inr ⟨z, hz2, hx⟩

/-- A name in the dependents warning is installed per the manifest and is
not itself in the removal set. -/
theorem mem_removeDependents {reg : Registry} {cfg : DiamantConfig}
    {installed : List String} {d : String}
    (hd : d ∈ removeDependents reg cfg installed) :
    d ∈ cfg.installedComponents ∧ d ∉ installed := by
  unfold removeDependents at hd
  rw [mem_foldl_append] at hd
  rcases hd with h | ⟨name, _, hx⟩
  · cases h
  · rw [List.mem_map] at hx
    obtain ⟨p, hp, rfl⟩ := hx
    rw [List.mem_filter] at hp
    obtain ⟨-, hcond⟩ := hp
    rw [Bool.and_eq_true, Bool.and_eq_true] at hcond
    obtain ⟨⟨-, h2⟩, h3⟩ := hcond
    rw [Bool.not_eq_true'] at h3
    exact ⟨contains_iff.mp h2, contains_false_iff.mp h3⟩

/-- The deletion loop only ever appends to the deleted-files list. -/
theorem removeExec_mono (reg : Registry) :
    ∀ (names : List String) (start : List String × ManifestFile),
      ∀ f ∈ start.1, f ∈ (removeExec reg names start).1 := by
  intro names
  induction names with
  | nil => intro start f hf; exact hf
  | cons n rest ih =>
    intro start f hf
    unfold removeExec
    rw [List.foldl_cons]
    show f ∈ (removeExec reg rest _).1
    cases hl : List.lookup n reg with
    | none => simp only [hl]; exact ih start f hf
    | some c =>
      simp only [hl]
      exact ih _ f (List.mem_append_left _ hf)

/-- Every file of every component in the removal set is passed to
deleteFile. -/
theorem removeExec_deletes (reg : Registry) :
    ∀ (names : List String) (start : List String × ManifestFile) (m : String)
      (cm : ComponentDefinition), m ∈ names → List.lookup m reg = some cm →
      ∀ f ∈ cm.files, f ∈ (removeExec reg names start).1 := by
  intro names
  induction names with
  | nil => intro start m cm hm; cases hm
  | cons n rest ih =>
    intro start m cm hm hlm f hf
    unfold removeExec
    rw [List.foldl_cons]
    show f ∈ (removeExec reg rest _).1
    rcases List.mem_cons.mp hm with rfl | hm2
    · rw [hlm]
      exact removeExec_mono reg rest _ f (List.mem_append_right _ hf)
    · cases hl : List.lookup n reg with
      | none => simp only [hl]; exact ih start m cm hm2 hlm f hf
      | some c => simp only [hl]; exact ih _ m cm hm2 hlm f hf

/-- The deletion loop keeps the manifest parseable and never removes an id
that is distinct from every id being removed. -/
theorem removeExec_preserve (reg : Registry) (d : String) :
    ∀ (names : List String) (start : List String × ManifestFile)
      (cfgA : DiamantConfig), (∀ n ∈ names, n ≠ d) → start.2 = some cfgA →
      d ∈ cfgA.installedComponents →
      ∃ cfgB, (removeExec reg names start).2 = some cfgB ∧
        d ∈ cfgB.installedComponents := by
  intro names
  induction names with
  | nil => intro start cfgA _ h2 h3; exact ⟨cfgA, h2, h3⟩
  | cons n rest ih =>
    intro start cfgA h1 h2 h3
    have hnd : n ≠ d := h1 n (List.mem_cons_self _ _)
    have h1' : ∀ x ∈ rest, x ≠ d := fun x hx => h1 x (List.mem_cons_of_mem _ hx)
    unfold removeExec
    rw [List.foldl_cons]
    show ∃ cfgB, (removeExec reg rest _).2 = some cfgB ∧ _
    cases hl : List.lookup n reg with
    | none => exact ih start cfgA h1' h2 h3
    | some c =>
      rw [h2]
      simp only [removeInstalledComponent]
      split
      · exact ih _ { cfgA with installedComponents := cfgA.installedComponents.erase n }
          h1' rfl ((List.mem_erase_of_ne (Ne.symm hnd)).mpr h3)
      · exact ih _ cfgA h1' rfl h3

/-- Once an id is absent from the manifest, the rest of the deletion loop
keeps it absent (and the manifest parseable). -/
theorem removeExec_not_mem (reg : Registry) (m : String) :
    ∀ (names : List String) (start : List String × ManifestFile)
      (cfgA : DiamantConfig), start.2 = some cfgA →
      m ∉ cfgA.installedComponents →
      ∃ cfgB, (removeExec reg names start).2 = some cfgB ∧
        m ∉ cfgB.installedComponents := by
  intro names
  induction names with
  | nil => intro start cfgA h2 h3; exact ⟨cfgA, h2, h3⟩
  | cons n rest ih =>
    intro start cfgA h2 h3
    unfold removeExec
    rw [List.foldl_cons]
    show ∃ cfgB, (removeExec reg rest _).2 = some cfgB ∧ _
    cases hl : List.lookup n reg with
    | none => exact ih start cfgA h2 h3
    | some c =>
      rw [h2]
      simp only [removeInstalledComponent]
      split
      · exact ih _ { cfgA with installedComponents := cfgA.installedComponents.erase n }
          rfl (fun hmem => h3 (List.mem_of_mem_erase hmem))
      · exact ih _ cfgA rfl h3

/-- An id in the removal set that the registry knows ends up removed from
the (duplicate-free) manifest by the deletion loop. -/
theorem removeExec_removes (reg : Registry) (m : String) :
    ∀ (names : List String) (start : List String × ManifestFile)
      (cfgA : DiamantConfig), start.2 = some cfgA →
      cfgA.installedComponents.Nodup → m ∈ names →
      (List.lookup m reg).isSome = true →
      ∃ cfgB, (removeExec reg names start).2 = some cfgB ∧
        m ∉ cfgB.installedComponents := by
  intro names
  induction names with
  | nil => intro start cfgA _ _ hm; cases hm
  | cons n rest ih =>
    intro start cfgA h2 hnd hm hsome
    unfold removeExec
    rw [List.foldl_cons]
    show ∃ cfgB, (removeExec reg rest _).2 = some cfgB ∧ _
    rcases List.mem_cons.mp hm with rfl | hm2
    · cases hl : List.lookup m reg with
      | none => rw [hl] at hsome; cases hsome
      | some c =>
        rw [h2]
        simp only [removeInstalledComponent]
        split
        · next hc =>
          refine removeExec_not_mem reg m rest _
            { cfgA with installedComponents := cfgA.installedComponents.erase m } rfl ?_
          intro hmem
          exact ((hnd.mem_erase_iff).mp hmem).1 rfl
        · next hc =>
          rw [Bool.not_eq_true] at hc
          exact removeExec_not_mem reg m rest _ cfgA rfl (contains_false_iff.mp hc)
    · cases hl : List.lookup n reg with
      | none => exact ih start cfgA h2 hnd hm2 hsome
      | some c =>
        rw [h2]
        simp only [removeInstalledComponent]
        split
        · exact ih _ { cfgA with installedComponents := cfgA.installedComponents.erase n }
            rfl (hnd.erase n) hm2 hsome
        · exact ih _ cfgA rfl hnd hm2 hsome

/-- removeCmd on its all-ids-invalid early return. -/
theorem removeCmd_branch1 (reg : Registry) (components : List String)
    (fe : String → Bool) (cfg : DiamantConfig) (yes conf : Bool)
    (h1 : (removeValid reg components).isEmpty = true) :
    removeCmd reg components fe cfg yes conf =
      ⟨removeInvalid reg components, true, [], false, [], false, [], some cfg, false⟩ := by
  simp [removeCmd, h1]

/-- removeCmd on its nothing-on-disk early return. -/
theorem removeCmd_branch2 (reg : Registry) (components : List String)
    (fe : String → Bool) (cfg : DiamantConfig) (yes conf : Bool)
    (h1 : (removeValid reg components).isEmpty = false)
    (h2 : (removeOnDisk reg fe (removeValid reg components)).isEmpty = true) :
    removeCmd reg components fe cfg yes conf =
      ⟨removeInvalid reg components, false, [], true, [], false, [], some cfg, false⟩ := by
  simp [removeCmd, h1, h2]

/-- removeCmd on its cancelled-confirmation return. -/
theorem removeCmd_branch3 (reg : Registry) (components : List String)
    (fe : String → Bool) (cfg : DiamantConfig) (yes conf : Bool)
    (h1 : (removeValid reg components).isEmpty = false)
    (h2 : (removeOnDisk reg fe (removeValid reg components)).isEmpty = false)
    (h3 : (!yes && !conf) = true) :
    removeCmd reg components fe cfg yes conf =
      ⟨removeInvalid reg components, false,
       removeOnDisk reg fe (removeValid reg components), false,
       removeDependents reg cfg (removeOnDisk reg fe (removeValid reg components)),
       true, [], some cfg, false⟩ := by
  simp [removeCmd, h1, h2, h3]

/-- removeCmd on its main path: deletion performed. -/
theorem removeCmd_main (reg : Registry) (components : List String)
    (fe : String → Bool) (cfg : DiamantConfig) (yes conf : Bool)
    (h1 : (removeValid reg components).isEmpty = false)
    (h2 : (removeOnDisk reg fe (removeValid reg components)).isEmpty = false)
    (h3 : (!yes && !conf) = false) :
    removeCmd reg components fe cfg yes conf =
      ⟨removeInvalid reg components, false,
       removeOnDisk reg fe (removeValid reg components), false,
       removeDependents reg cfg (removeOnDisk reg fe (removeValid reg components)),
       false,
       (removeExec reg (removeOnDisk reg fe (removeValid reg components)) ([], some cfg)).1,
       (removeExec reg (removeOnDisk reg fe (removeValid reg components)) ([], some cfg)).2,
       true⟩ := by
  simp [removeCmd, h1, h2, h3]

/-- Every id in the removal set has a registry entry. -/
theorem mem_removeOnDisk_isSome {reg : Registry} {fe : String → Bool}
    {valid : List String} {m : String} (hm : m ∈ removeOnDisk reg fe valid) :
    (List.lookup m reg).isSome = true := by
  unfold removeOnDisk at hm
  rw [List.mem_filter] at hm
  obtain ⟨-, hcond⟩ := hm
  cases hl : List.lookup m reg with
  | none => rw [hl] at hcond; cases hcond
  | some c => rfl

/-- Claim C6.  With options.yes set, a dependents warning never blocks the
removal: any id d in the dependents warning is itself installed per the
manifest and not in the removal set; the deletion still runs to completion,
deleting every file of every id in the removal set and removing each such id
from the (duplicate-free) manifest, while d's manifest entry survives. -/
theorem c6_dependents_warning_not_blocking (reg : Registry)
    (components : List String) (fe : String → Bool) (cfg : DiamantConfig)
    (conf : Bool) (d : String)
    (hnd : cfg.installedComponents.Nodup)
    (hd : d ∈ (removeCmd reg components fe cfg true conf).dependentComponents) :
    (removeCmd reg components fe cfg true conf).performed = true ∧
    d ∉ (removeCmd reg components fe cfg true conf).installedComponents ∧
    (∃ cfgB, (removeCmd reg components fe cfg true conf).finalManifest = some cfgB ∧
      d ∈ cfgB.installedComponents) ∧
    (∀ m cm, m ∈ (removeCmd reg components fe cfg true conf).installedComponents →
      List.lookup m reg = some cm →
      ∀ f ∈ cm.files, f ∈ (removeCmd reg components fe cfg true conf).deletedFiles) ∧
    (∀ m, m ∈ (removeCmd reg components fe cfg true conf).installedComponents →
      ∃ cfgB, (removeCmd reg components fe cfg true conf).finalManifest = some cfgB ∧
        m ∉ cfgB.installedComponents) := by
  have h3 : (!true && !conf) = false := rfl
  by_cases h1 : (removeValid reg components).isEmpty = true
  · rw [removeCmd_branch1 reg components fe cfg true conf h1] at hd
    cases hd
  · rw [Bool.not_eq_true] at h1
    by_cases h2 : (removeOnDisk reg fe (removeValid reg components)).isEmpty = true
    · rw [removeCmd_branch2 reg components fe cfg true conf h1 h2] at hd
      cases hd
    · rw [Bool.not_eq_true] at h2
      have heq := removeCmd_main reg components fe cfg true conf h1 h2 h3
      rw [heq] at hd ⊢
      obtain ⟨hdin, hdout⟩ := mem_removeDependents hd
      refine ⟨rfl, hdout, ?_, ?_, ?_⟩
      · exact removeExec_preserve reg d _ ([], some cfg) cfg
          (fun n hn => fun hnd2 => hdout (hnd2 ▸ hn)) rfl hdin
      · intro m cm hm hlm f hf
        exact removeExec_deletes reg _ ([], some cfg) m cm hm hlm f hf
      · intro m hm
        exact removeExec_removes reg m _ ([], some cfg) cfg rfl hnd hm
          (mem_removeOnDisk_isSome hm)

/-- The C6 scenario: removing button while carousel is installed warns about
carousel, still deletes Button.tsx, removes button from the manifest, and
leaves carousel's entry intact. -/
theorem c6_witness :
    cfgBC.installedComponents.Nodup ∧
    "carousel" ∈ (removeCmd registry ["button"] (fun f => f == "Button.tsx")
      cfgBC true false).dependentComponents ∧
    ((removeCmd registry ["button"] (fun f => f == "Button.tsx")
        cfgBC true false).performed = true ∧
     "carousel" ∉ (removeCmd registry ["button"] (fun f => f == "Button.tsx")
        cfgBC true false).installedComponents ∧
     (∃ cfgB, (removeCmd registry ["button"] (fun f => f == "Button.tsx")
        cfgBC true false).finalManifest = some cfgB ∧
        "carousel" ∈ cfgB.installedComponents) ∧
     (∀ m cm, m ∈ (removeCmd registry ["button"] (fun f => f == "Button.tsx")
        cfgBC true false).installedComponents →
        List.lookup m registry = some cm →
        ∀ f ∈ cm.files, f ∈ (removeCmd registry ["button"] (fun f => f == "Button.tsx")
          cfgBC true false).deletedFiles) ∧
     (∀ m, m ∈ (removeCmd registry ["button"] (fun f => f == "Button.tsx")
        cfgBC true false).installedComponents →
        ∃ cfgB, (removeCmd registry ["button"] (fun f => f == "Button.tsx")
          cfgBC true false).finalManifest = some cfgB ∧
          m ∉ cfgB.installedComponents)) :=
  ⟨by decide, by decide,
   c6_dependents_warning_not_blocking registry ["button"] (fun f => f == "Button.tsx")
     cfgBC false "carousel" (by decide) (by decide)⟩

/-- Claim C7 as stated is false on the code: in a mixed batch, a valid
requested id whose first file is absent (card, never installed) is silently
excluded — the command's complete surfaced output (unknown-components list,
removal list, collective none-installed message, dependents warning) never
mentions it, and the removal of the other id proceeds. -/
theorem c7_counterexample :
    removeCmd registry ["button", "card"] (fun f => f == "Button.tsx") cfgB true true =
      ⟨[], false, ["button"], false, [], false, ["Button.tsx"],
       some defaultConfig, true⟩ := by decide

/-- Claim C7, amended.  A valid requested id whose first file is absent on
disk is excluded from the deletion set, but it is not reported as
never-installed: it does not appear in the unknown-components list, and the
only reporting for this case is the collective none-installed message,
printed exactly when NO requested valid id has its first file on disk — in a
mixed batch the id is dropped from the removal flow without a report.  (Such
an id can still be named by the separate dependents warning, as a
likely-to-break dependent of other ids being removed, never as a skipped
id.) -/
theorem c7_never_installed_excluded (reg : Registry) (components : List String)
    (fe : String → Bool) (cfg : DiamantConfig) (yes conf : Bool)
    (n : String) (c : ComponentDefinition)
    (hn : n ∈ components) (hc : List.lookup (lower n) reg = some c)
    (hfe : fe (c.files.headD "") = false) :
    lower n ∉ (removeCmd reg components fe cfg yes conf).installedComponents ∧
    n ∉ (removeCmd reg components fe cfg yes conf).invalidComponents ∧
    ((removeCmd reg components fe cfg yes conf).noneInstalledMsg = true ↔
      (removeCmd reg components fe cfg yes conf).installedComponents = []) := by
  have hval : lower n ∈ removeValid reg components := by
    unfold removeValid
    rw [List.mem_filterMap]
    exact ⟨n, hn, by rw [hc]; rfl⟩
  have h1 : (removeValid reg components).isEmpty = false := by
    cases hv : (removeValid reg components).isEmpty with
    | false => rfl
    | true => rw [List.isEmpty_iff.mp hv] at hval; cases hval
  have hnot : lower n ∉ removeOnDisk reg fe (removeValid reg components) := by
    intro hmem
    unfold removeOnDisk at hmem
    simp only [List.mem_filter, hc] at hmem
    rw [hmem.2] at hfe
    cases hfe
  have hinv : n ∉ removeInvalid reg components := by
    intro hmem
    unfold removeInvalid at hmem
    rw [List.mem_filter, hc] at hmem
    cases hmem.2
  by_cases h2 : (removeOnDisk reg fe (removeValid reg components)).isEmpty = true
  · rw [removeCmd_branch2 reg components fe cfg yes conf h1 h2]
    exact ⟨by simp, hinv, by simp⟩
  · rw [Bool.not_eq_true] at h2
    have hne : removeOnDisk reg fe (removeValid reg components) ≠ [] := by
      intro h
      rw [h] at h2
      cases h2
    by_cases h3 : (!yes && !conf) = true
    · rw [removeCmd_branch3 reg components fe cfg yes conf h1 h2 h3]
      exact ⟨hnot, hinv, iff_of_false (by simp) hne⟩
    · rw [Bool.not_eq_true] at h3
      rw [removeCmd_main reg components fe cfg yes conf h1 h2 h3]
      exact ⟨hnot, hinv, iff_of_false (by simp) hne⟩

/-- The amended C7 at the concrete mixed batch: card is valid, its file is
absent, and it is excluded from deletion with no individual report. -/
theorem c7_witness :
    "card" ∈ (["button", "card"] : List String) ∧
    (lower "card" ∉ (removeCmd registry ["button", "card"]
        (fun f => f == "Button.tsx") cfgB true true).installedComponents ∧
     "card" ∉ (removeCmd registry ["button", "card"]
        (fun f => f == "Button.tsx") cfgB true true).invalidComponents ∧
     ((removeCmd registry ["button", "card"]
        (fun f => f == "Button.tsx") cfgB true true).noneInstalledMsg = true ↔
      (removeCmd registry ["button", "card"]
        (fun f => f == "Button.tsx") cfgB true true).installedComponents = [])) :=
  ⟨by decide,
   c7_never_installed_excluded registry ["button", "card"] (fun f => f == "Button.tsx")
     cfgB true true "card" cardDef (by decide) (by decide) (by decide)⟩

/-- Claim C8 as stated is false on the code: a registry-recognized,
manifest-installed component whose first file is absent is classified
missing by BOTH loops, but only diff reports it ("(missing)"); update's scan
records nothing for it — componentsToUpdate is empty, so update surfaces
nothing about the component (silent skip), contradicting "reported
distinctly, not silently skipped" for update. -/
theorem c8_counterexample :
    updateCheck registry (fun _ => false) (fun _ => some "") (fun _ => some "")
      "@/lib/utils" "button" = UpdateClass.missingOnDisk ∧
    updateScan registry (fun _ => false) (fun _ => some "") (fun _ => some "")
      "@/lib/utils" ["button"] = [] ∧
    diffCheck registry (fun _ => false) (fun _ => some "") (fun _ => some "")
      "@/lib/utils" "button" = DiffClass.missing := by decide

/-- Claim C8, amended.  A component recognized by the registry, listed in
the manifest, but with its first file absent on disk is classified
missing-on-disk by both commands; diff reports it distinctly as missing,
while update silently skips it: its name never reaches update's
componentsToUpdate records, update's only per-component output. -/
theorem c8_missing_on_disk (reg : Registry) (fe : String → Bool)
    (readL readS : String → Option String) (u : String) (name : String)
    (c : ComponentDefinition) (comps : List String)
    (hc : List.lookup (lower name) reg = some c)
    (hlow : lower name = name)
    (hfe : fe (c.files.headD "") = false) :
    updateCheck reg fe readL readS u name = UpdateClass.missingOnDisk ∧
    name ∉ (updateScan reg fe readL readS u comps).map Prod.fst ∧
    diffCheck reg fe readL readS u name = DiffClass.missing := by
  have hc' : List.lookup name reg = some c := by rw [← hlow]; exact hc
  have hupd : ∀ nm : String, lower nm = name →
      updateCheck reg fe readL readS u nm = UpdateClass.missingOnDisk := by
    intro nm hlnm
    simp only [updateCheck, hlnm, hc']
    rw [hfe]
    rfl
  refine ⟨hupd name hlow, ?_, ?_⟩
  · intro hmem
    rw [List.mem_map] at hmem
    obtain ⟨⟨x, b⟩, hx, hfst⟩ := hmem
    unfold updateScan at hx
    rw [List.mem_filterMap] at hx
    obtain ⟨nm, hnm, hsome⟩ := hx
    cases hcheck : updateCheck reg fe readL readS u nm with
    | unknownComp => rw [hcheck] at hsome; cases hsome
    | missingOnDisk => rw [hcheck] at hsome; cases hsome
    | readError => rw [hcheck] at hsome; cases hsome
    | upToDate =>
      rw [hcheck] at hsome
      cases hsome
      have := hupd nm hfst
      rw [hcheck] at this
      cases this
    | hasChanges =>
      rw [hcheck] at hsome
      cases hsome
      have := hupd nm hfst
      rw [hcheck] at this
      cases this
  · simp only [diffCheck, hc']
    rw [hfe]
    rfl

/-- The amended C8 at a concrete input: button installed per the manifest,
Button.tsx absent on disk. -/
theorem c8_witness :
    updateCheck registry (fun _ => false) (fun _ => some "x") (fun _ => some "x")
      "@/lib/utils" "button" = UpdateClass.missingOnDisk ∧
    "button" ∉ (updateScan registry (fun _ => false) (fun _ => some "x")
      (fun _ => some "x") "@/lib/utils" ["button", "carousel"]).map Prod.fst ∧
    diffCheck registry (fun _ => false) (fun _ => some "x") (fun _ => some "x")
      "@/lib/utils" "button" = DiffClass.missing :=
  c8_missing_on_disk registry (fun _ => false) (fun _ => some "x") (fun _ => some "x")
    "@/lib/utils" "button" buttonDef ["button", "carousel"]
    (by decide) (by decide) rfl

/-- Claim C9.  Round-trip transform stability: when the local copy holds
exactly the Content-Transformed source-of-truth content (for any fixed
utils alias path), both update's scan and diff's summary classify the
component as up to date (presentUnmodified) — the trimmed comparison of the
two equal strings always succeeds. -/
theorem c9_roundtrip_transform_stable (reg : Registry) (fe : String → Bool)
    (readL readS : String → Option String) (u : String) (name : String)
    (c : ComponentDefinition) (src : String)
    (hc : List.lookup (lower name) reg = some c)
    (hfe : fe (c.files.headD "") = true)
    (hs : readS (c.files.headD "") = some src)
    (hl : readL (c.files.headD "") = some (transformContent u src)) :
    updateCheck reg fe readL readS u name = UpdateClass.upToDate ∧
    (List.lookup name reg = some c →
      diffCheck reg fe readL readS u name = DiffClass.upToDate) := by
  constructor
  · simp only [updateCheck, hc, hfe, hs, hl]
    simp
  · intro hc2
    simp only [diffCheck, hc2, hfe, hs, hl]
    simp

/-- The C9 scenario at a concrete template: a local Button.tsx holding
exactly the transformed source is classified up to date by both commands. -/
theorem c9_witness :
    updateCheck registry (fun _ => true) (fun _ => some (transformContent "@/lib/utils" sampleSource))
      (fun _ => some sampleSource) "@/lib/utils" "button" = UpdateClass.upToDate ∧
    (List.lookup "button" registry = some buttonDef →
      diffCheck registry (fun _ => true) (fun _ => some (transformContent "@/lib/utils" sampleSource))
        (fun _ => some sampleSource) "@/lib/utils" "button" = DiffClass.upToDate) :=
  c9_roundtrip_transform_stable registry (fun _ => true)
    (fun _ => some (transformContent "@/lib/utils" sampleSource))
    (fun _ => some sampleSource) "@/lib/utils" "button" buttonDef sampleSource
    (by decide) rfl rfl rfl

end Diamant
